import Mathlib

/-!
Verification of the clewdr Codex gateway core: message translation,
session-id derivation, upstream dispatch, SSE stream translation,
non-streaming aggregation, and the OAuth PKCE callback.

Rust strings are modelled as `List Char`; machine-level byte values are
`Nat` with explicit `% 2 ^ n` where overflow matters.
-/

namespace Clewdr

/-- Rust strings modelled as lists of characters. -/
abbrev Str := List Char

/-- `str.trim_start()`: drop leading whitespace. -/
def trimL : Str → Str
  | [] => []
  | c :: cs => if c.isWhitespace then trimL cs else c :: cs

/-- `str.trim_end()`: drop trailing whitespace. -/
def trimR (s : Str) : Str := (trimL s.reverse).reverse

/-- `str.trim()`. -/
def rustTrim (s : Str) : Str := trimR (trimL s)

/-- `str.to_lowercase()` (per-character, as for ASCII model names). -/
def lowerS (s : Str) : Str := s.map Char.toLower

/-- `name.split(':').next()`: everything before the first `':'`. -/
def beforeColon : Str → Str
  | [] => []
  | c :: cs => if c = ':' then [] else c :: beforeColon cs

/-- The effort suffixes checked by `normalize_model_name`, in source order. -/
def efforts : List Str := ["minimal".data, "low".data, "medium".data, "high".data]

/-- One pass of the effort-suffix stripper for a single separator: the first
effort whose `sep`-prefixed form is a suffix of the lowercased base is
truncated away (at most one per separator, as in the source loop). -/
def stripEffortSep (sep : Char) (base : Str) : Str :=
  let lowered := lowerS base
  match efforts.find? (fun e => (sep :: e).isSuffixOf lowered) with
  | some e => base.take (base.length - (e.length + 1))
  | none => base

/-- The full suffix-stripping loop: separator `'-'` first, then `'_'`. -/
def strip_effort (base : Str) : Str := stripEffortSep '_' (stripEffortSep '-' base)

/-- The alias table applied after stripping. -/
def applyAlias (base : Str) : Str :=
  if base = "gpt5".data ∨ base = "gpt-5-latest".data ∨ base = "gpt-5".data then
    "gpt-5".data
  else if base = "codex".data ∨ base = "codex-mini".data ∨
      base = "codex-mini-latest".data then
    "codex-mini-latest".data
  else base

/-- `CodexState::normalize_model_name` from `src/codex_state/mod.rs`. -/
def normalize_model_name (name : Option Str) : Str :=
  match (name.map rustTrim).filter (fun s => !s.isEmpty) with
  | none => "gpt-5".data
  | some n => applyAlias (strip_effort (rustTrim (beforeColon n)))

example : normalize_model_name (some "gpt5".data) = "gpt-5".data := by decide
example : normalize_model_name (some "codex:beta".data) = "codex-mini-latest".data := by decide
example : normalize_model_name (some "gpt-5-HIGH".data) = "gpt-5".data := by decide
example : normalize_model_name none = "gpt-5".data := by decide
example : normalize_model_name (some "  ".data) = "gpt-5".data := by decide
example : normalize_model_name (some "a-low-low".data) = "a-low".data := by decide
example : normalize_model_name (some "a-low".data) = "a".data := by decide

/-! ## JSON values (`serde_json::Value`) -/

/-- `serde_json::Value`, shallowly embedded (numbers as integers; the
claims never depend on float payloads). -/
inductive J where
  | null
  | bool (b : Bool)
  | num (n : Int)
  | str (s : Str)
  | arr (items : List J)
  | obj (fields : List (Str × J))

/-- Object field lookup (first matching key, as serde maps have unique keys). -/
def lookupField : List (Str × J) → Str → Option J
  | [], _ => none
  | (k, v) :: rest, key => if k = key then some v else lookupField rest key

/-- `Value::get(key)`: `Some` only on objects holding the key. -/
def J.get? : J → Str → Option J
  | .obj fs, k => lookupField fs k
  | _, _ => none

/-- `Value::as_str()`. -/
def J.asStr? : J → Option Str
  | .str s => some s
  | _ => none

/-- `Value::as_array()`. -/
def J.asArr? : J → Option (List J)
  | .arr xs => some xs
  | _ => none

/-! ## Data model (from `types::claude`, not under `src/`)

Modelled from the spec: the `types::claude` module holding `Role`,
`ContentBlock`, `MessageContent` and `Message` is not part of the given
sources; §3 of the spec defines
`ChatMessage = { role: System|User|Assistant|Tool, content: Text | Blocks }`
and `ContentBlock = Text{text} | ImageUrl{url} | ToolResult{tool_use_id, content}`.
An `other` constructor stands for further variants hit by the `_ => {}`
catch-all arms of the converter. -/

/-- Modelled from the spec: message roles. -/
inductive Role where
  | system
  | user
  | assistant
  | tool
deriving DecidableEq

/-- Modelled from the spec: content blocks of a message. -/
inductive ContentBlock where
  | text (text : Str)
  | imageUrl (url : Str)
  | toolResult (tool_use_id : Str) (content : Str)
  | other
deriving DecidableEq

/-- Modelled from the spec: plain-text or block content. -/
inductive MessageContent where
  | text (content : Str)
  | blocks (content : List ContentBlock)

/-- Modelled from the spec: a chat message. -/
structure Message where
  role : Role
  content : MessageContent

/-! ## Image data-URL normalization (`normalize_data_url`) -/

/-- The standard base64 alphabet, index order. -/
def stdChars : Str :=
  ("ABCDEFGHIJKLMNOPQRSTUVWXYZabcdefghijklmnopqrstuvwxyz0123456789+/").data

/-- The URL-safe base64 alphabet, index order. -/
def urlChars : Str :=
  ("ABCDEFGHIJKLMNOPQRSTUVWXYZabcdefghijklmnopqrstuvwxyz0123456789-_").data

/-- Index of the first occurrence of `c` in `l`. -/
def idxIn (l : Str) (c : Char) : Option Nat :=
  match l with
  | [] => none
  | a :: t => if a = c then some 0 else (idxIn t c).map (· + 1)

/-- Symbol index in the standard alphabet. -/
def stdIdx (c : Char) : Option Nat := idxIn stdChars c

/-- Symbol index in the URL-safe alphabet. -/
def urlIdx (c : Char) : Option Nat := idxIn urlChars c

/-- Whether `URL_SAFE_NO_PAD.decode` succeeds: every char in the URL-safe
alphabet (no padding accepted), length not ≡ 1 mod 4, and the unused
trailing bits of a partial final group are zero (the crate's default
canonicality check). -/
def urlNoPadOk (s : Str) : Bool :=
  s.all (fun c => (urlIdx c).isSome) &&
  (let r := s.length % 4
   if r = 1 then false
   else if r = 2 then
     match s.getLast? with
     | some c => (urlIdx c).getD 0 % 16 == 0
     | none => true
   else if r = 3 then
     match s.getLast? with
     | some c => (urlIdx c).getD 0 % 4 == 0
     | none => true
   else true)

/-- The number of trailing `'='` padding characters of a candidate. -/
def eqCount (s : Str) : Nat := (s.reverse.takeWhile (fun c => c = '=')).length

/-- The candidate with its trailing `'='` padding removed. -/
def b64Body (s : Str) : Str := s.take (s.length - eqCount s)

/-- Whether `STANDARD.decode` succeeds: length a multiple of 4, canonical
`'='` padding (at most two, only at the end), body in the standard
alphabet, zero unused trailing bits before the padding. -/
def stdPadOk (s : Str) : Bool :=
  s.length % 4 == 0 &&
  (eqCount s ≤ 2 &&
   ((b64Body s).all (fun c => (stdIdx c).isSome) &&
    (if eqCount s = 1 then
       match (b64Body s).getLast? with
       | some c => (stdIdx c).getD 0 % 4 == 0
       | none => false
     else if eqCount s = 2 then
       match (b64Body s).getLast? with
       | some c => (stdIdx c).getD 0 % 16 == 0
       | none => false
     else true)))

/-- `url.split_once(',')`: parts before and after the first comma. -/
def splitOnceComma : Str → Option (Str × Str)
  | [] => none
  | c :: cs =>
    if c = ',' then some ([], cs)
    else (splitOnceComma cs).map (fun p => (c :: p.1, p.2))

/-- `.replace('\n', "").replace('\r', "")`. -/
def removeNL (s : Str) : Str := s.filter (fun c => c ≠ '\n' && c ≠ '\r')

/-- `.replace(a, b)` for single characters. -/
def replaceChar (a b : Char) (s : Str) : Str :=
  s.map (fun c => if c = a then b else c)

/-- The cleaned payload `d` of `normalize_data_url`: trim, strip `'\n'`
and `'\r'`, convert `'-'` to `'+'` and `'_'` to `'/'`. -/
def d1Of (data : Str) : Str :=
  replaceChar '_' '/' (replaceChar '-' '+' (removeNL (rustTrim data)))

/-- The `'='`-padded payload `dpad` of `normalize_data_url`: right-pad the
cleaned payload to a multiple of 4 characters. -/
def dpadOf (data : Str) : Str :=
  d1Of data ++ List.replicate ((4 - (d1Of data).length % 4) % 4) '='

/-- `normalize_data_url` from `src/codex_state/mod.rs`. -/
def normalize_data_url (url : Str) : Str :=
  if !("data:image/".data.isPrefixOf url) then url
  else
    match splitOnceComma url with
    | none => url
    | some (header, data) =>
      if !(urlNoPadOk (dpadOf data)) && !(stdPadOk (dpadOf data)) then url
      else header ++ ',' :: dpadOf data

example : normalize_data_url "http://example.com/x.png".data = "http://example.com/x.png".data := by decide
example : normalize_data_url "data:image/png;base64,TWFu".data = "data:image/png;base64,TWFu".data := by decide
example : normalize_data_url "data:image/png;base64,TWE".data = "data:image/png;base64,TWE=".data := by decide
example : normalize_data_url "data:image/png;base64,-_-_".data = "data:image/png;base64,+/+/".data := by decide
example : normalize_data_url "data:image/png;base64,!!".data = "data:image/png;base64,!!".data := by decide

/-! ## Message translation (`convert_messages_to_responses_input`) -/

/-- Content parts collected for an assistant message with block content:
each non-empty `Text` block becomes an `output_text` part. -/
def assistantItems (blocks : List ContentBlock) : List J :=
  blocks.filterMap fun blk =>
    match blk with
    | .text t =>
      if t.isEmpty then none
      else some (J.obj [("type".data, .str "output_text".data), ("text".data, .str t)])
    | _ => none

/-- Content parts collected for a user/tool message with block content:
non-empty `Text` blocks become `input_text` parts, `ImageUrl` blocks become
`input_image` parts with normalized URL, `ToolResult` blocks become
`function_call_output` objects pushed into the same parts vector. -/
def userItems (blocks : List ContentBlock) : List J :=
  blocks.filterMap fun blk =>
    match blk with
    | .text t =>
      if t.isEmpty then none
      else some (J.obj [("type".data, .str "input_text".data), ("text".data, .str t)])
    | .imageUrl u =>
      let url := normalize_data_url u
      if url.isEmpty then none
      else some (J.obj [("type".data, .str "input_image".data), ("image_url".data, .str url)])
    | .toolResult tid c =>
      some (J.obj [("type".data, .str "function_call_output".data),
                   ("call_id".data, .str tid), ("output".data, .str c)])
    | .other => none

/-- `{"type": "message", "role": role, "content": items}`. -/
def messageObj (role : Str) (items : List J) : J :=
  J.obj [("type".data, .str "message".data), ("role".data, .str role),
         ("content".data, .arr items)]

/-- The items pushed to the output for one message (empty, or one
`message` object; system messages contribute nothing). -/
def message_to_items (msg : Message) : List J :=
  match msg.role, msg.content with
  | .system, _ => []
  | .assistant, .blocks content =>
    let items := assistantItems content
    if items.isEmpty then [] else [messageObj "assistant".data items]
  | .assistant, .text content =>
    if content.isEmpty then []
    else [messageObj "assistant".data
      [J.obj [("type".data, .str "output_text".data), ("text".data, .str content)]]]
  | _, .blocks content =>
    let items := userItems content
    if items.isEmpty then [] else [messageObj "user".data items]
  | _, .text content =>
    if content.isEmpty then []
    else [messageObj "user".data
      [J.obj [("type".data, .str "input_text".data), ("text".data, .str content)]]]

/-- `CodexState::convert_messages_to_responses_input` from
`src/codex_state/mod.rs`. -/
def convert_messages_to_responses_input : List Message → List J
  | [] => []
  | m :: rest => message_to_items m ++ convert_messages_to_responses_input rest

/-! ## SHA-256 (the `sha2` crate dependency, FIPS 180-4)

Bytes and 32-bit words are `Nat` with explicit reduction mod `2 ^ 32`. -/

/-- 2^32, the word modulus. -/
def M32 : Nat := 2 ^ 32

/-- Rotate a 32-bit word right by `n`. -/
def rotr (n w : Nat) : Nat := ((w >>> n) ||| (w <<< (32 - n))) % M32

/-- FIPS 180-4 Σ0. -/
def bigSigma0 (w : Nat) : Nat := rotr 2 w ^^^ rotr 13 w ^^^ rotr 22 w

/-- FIPS 180-4 Σ1. -/
def bigSigma1 (w : Nat) : Nat := rotr 6 w ^^^ rotr 11 w ^^^ rotr 25 w

/-- FIPS 180-4 σ0. -/
def smallSigma0 (w : Nat) : Nat := rotr 7 w ^^^ rotr 18 w ^^^ (w >>> 3)

/-- FIPS 180-4 σ1. -/
def smallSigma1 (w : Nat) : Nat := rotr 17 w ^^^ rotr 19 w ^^^ (w >>> 10)

/-- The 64 SHA-256 round constants (decimal). -/
def sha256K : List Nat :=
  [1116352408, 1899447441, 3049323471, 3921009573, 961987163, 1508970993,
   2453635748, 2870763221, 3624381080, 310598401, 607225278, 1426881987,
   1925078388, 2162078206, 2614888103, 3248222580, 3835390401, 4022224774,
   264347078, 604807628, 770255983, 1249150122, 1555081692, 1996064986,
   2554220882, 2821834349, 2952996808, 3210313671, 3336571891, 3584528711,
   113926993, 338241895, 666307205, 773529912, 1294757372, 1396182291,
   1695183700, 1986661051, 2177026350, 2456956037, 2730485921, 2820302411,
   3259730800, 3345764771, 3516065817, 3600352804, 4094571909, 275423344,
   430227734, 506948616, 659060556, 883997877, 958139571, 1322822218,
   1537002063, 1747873779, 1955562222, 2024104815, 2227730452, 2361852424,
   2428436474, 2756734187, 3204031479, 3329325298]

/-- The eight 32-bit hash state words. -/
structure Hash8 where
  h0 : Nat
  h1 : Nat
  h2 : Nat
  h3 : Nat
  h4 : Nat
  h5 : Nat
  h6 : Nat
  h7 : Nat

/-- The SHA-256 initial hash value (decimal). -/
def initH : Hash8 :=
  ⟨1779033703, 3144134277, 1013904242, 2773480762,
   1359893119, 2600822924, 528734635, 1541459225⟩

/-- `k` big-endian bytes of `n`. -/
def beBytes : Nat → Nat → List Nat
  | 0, _ => []
  | k + 1, n => beBytes k (n / 256) ++ [n % 256]

/-- Pad a byte message per FIPS 180-4: `0x80`, zeros to 56 mod 64, then
the 64-bit big-endian bit length. -/
def padMessage (msg : List Nat) : List Nat :=
  let L := msg.length
  let zeros := (120 - ((L + 1) % 64)) % 64
  msg ++ 0x80 :: (List.replicate zeros 0 ++ beBytes 8 (L * 8))

/-- Big-endian 4-byte groups to 32-bit words. -/
def bytesToWords : List Nat → List Nat
  | b0 :: b1 :: b2 :: b3 :: rest =>
    (((b0 * 256 + b1) * 256 + b2) * 256 + b3) :: bytesToWords rest
  | _ => []

/-- Extend 16 schedule words to 64. -/
def schedule (ws : List Nat) : List Nat :=
  (List.range 48).foldl
    (fun acc _ =>
      let k := acc.length
      acc ++ [(acc.getD (k - 16) 0 + smallSigma0 (acc.getD (k - 15) 0) +
               acc.getD (k - 7) 0 + smallSigma1 (acc.getD (k - 2) 0)) % M32])
    ws

/-- One SHA-256 round on the working variables. -/
def sha256Round (st : Hash8) (kw : Nat × Nat) : Hash8 :=
  let ch := (st.h4 &&& st.h5) ^^^ ((st.h4 ^^^ 0xffffffff) &&& st.h6)
  let maj := (st.h0 &&& st.h1) ^^^ (st.h0 &&& st.h2) ^^^ (st.h1 &&& st.h2)
  let t1 := (st.h7 + bigSigma1 st.h4 + ch + kw.1 + kw.2) % M32
  let t2 := (bigSigma0 st.h0 + maj) % M32
  ⟨(t1 + t2) % M32, st.h0, st.h1, st.h2, (st.h3 + t1) % M32, st.h4, st.h5, st.h6⟩

/-- Compress one 64-byte block into the hash state. -/
def compress (st : Hash8) (block : List Nat) : Hash8 :=
  let ws := schedule (bytesToWords block)
  let fin := (sha256K.zip ws).foldl sha256Round st
  ⟨(st.h0 + fin.h0) % M32, (st.h1 + fin.h1) % M32, (st.h2 + fin.h2) % M32,
   (st.h3 + fin.h3) % M32, (st.h4 + fin.h4) % M32, (st.h5 + fin.h5) % M32,
   (st.h6 + fin.h6) % M32, (st.h7 + fin.h7) % M32⟩

/-- Fold `n` 64-byte blocks of `l` into the state. -/
def sha256Blocks (st : Hash8) (l : List Nat) : Nat → Hash8
  | 0 => st
  | n + 1 => sha256Blocks (compress st (l.take 64)) (l.drop 64) n

/-- Big-endian bytes of one 32-bit word. -/
def wordBytes (w : Nat) : List Nat :=
  [w / 2 ^ 24 % 256, w / 2 ^ 16 % 256, w / 2 ^ 8 % 256, w % 256]

/-- The 32 digest bytes of a final state. -/
def digestBytes (st : Hash8) : List Nat :=
  wordBytes st.h0 ++ wordBytes st.h1 ++ wordBytes st.h2 ++ wordBytes st.h3 ++
  wordBytes st.h4 ++ wordBytes st.h5 ++ wordBytes st.h6 ++ wordBytes st.h7

/-- SHA-256 of a byte message. -/
def sha256 (msg : List Nat) : List Nat :=
  let padded := padMessage msg
  digestBytes (sha256Blocks initH padded (padded.length / 64))

/-- Lowercase hex digit. -/
def hexDigit (n : Nat) : Char := "0123456789abcdef".data.getD n '0'

/-- `hex::encode`: lowercase hex, two digits per byte. -/
def hexEncode (bytes : List Nat) : Str :=
  bytes.flatMap (fun b => [hexDigit (b / 16), hexDigit (b % 16)])

/-- UTF-8 bytes of one character. -/
def utf8Char (c : Char) : List Nat :=
  let n := c.toNat
  if n < 0x80 then [n]
  else if n < 0x800 then
    [0xC0 ||| (n >>> 6), 0x80 ||| (n &&& 0x3F)]
  else if n < 0x10000 then
    [0xE0 ||| (n >>> 12), 0x80 ||| ((n >>> 6) &&& 0x3F), 0x80 ||| (n &&& 0x3F)]
  else
    [0xF0 ||| (n >>> 18), 0x80 ||| ((n >>> 12) &&& 0x3F),
     0x80 ||| ((n >>> 6) &&& 0x3F), 0x80 ||| (n &&& 0x3F)]

/-- `str.as_bytes()`: UTF-8 encoding. -/
def utf8Encode (s : Str) : List Nat := s.flatMap utf8Char

example :
    hexEncode (sha256 (utf8Encode "abc".data)) =
      "ba7816bf8f01cfea414140de5dae2223b00361a396177a9cb410ff61f20015ad".data := by
  decide

example :
    hexEncode (sha256 []) =
      "e3b0c44298fc1c149afbf4c8996fb92427ae41e4649b934ca495991b7852b855".data := by
  decide

/-! ## Session-id derivation (`ensure_session_id`) -/

/-- The parts collected from one user message's content array: each
`input_text` part's text and each `input_image` part as `<img:URL>`. -/
def partsOf (content : List J) : List Str :=
  content.filterMap fun part =>
    match (part.get? "type".data).bind J.asStr? with
    | some t =>
      if t = "input_text".data then (part.get? "text".data).bind J.asStr?
      else if t = "input_image".data then
        ((part.get? "image_url".data).bind J.asStr?).map
          (fun u => "<img:".data ++ u ++ ">".data)
      else none
    | none => none

/-- `Vec::join("|")`. -/
def joinBar : List Str → Str
  | [] => []
  | [s] => s
  | s :: rest => s ++ '|' :: joinBar rest

/-- `canonicalize_first_user_message` from `src/codex_state/mod.rs`;
the `?` operators abort the whole function with `None`. -/
def canonicalize_first_user_message : List J → Option Str
  | [] => none
  | item :: rest => do
    let tv ← item.get? "type".data
    let t ← tv.asStr?
    if t ≠ "message".data then canonicalize_first_user_message rest
    else do
      let rv ← item.get? "role".data
      let role ← rv.asStr?
      if role ≠ "user".data then canonicalize_first_user_message rest
      else do
        let cv ← item.get? "content".data
        let content ← cv.asArr?
        let parts := partsOf content
        if parts.isEmpty then canonicalize_first_user_message rest
        else some (joinBar parts)

/-- The prefix string built by `ensure_session_id`: trimmed non-blank
instructions, then the canonical first user message if any. -/
def sessionPref (instructions : Option Str) (input_items : List J) : Str :=
  (match instructions with
   | some ins => if (rustTrim ins).isEmpty then [] else rustTrim ins
   | none => []) ++
  ((canonicalize_first_user_message input_items).getD [])

/-- `ensure_session_id` from `src/codex_state/mod.rs`. `fresh` stands for
the `Uuid::new_v4()` value drawn in the empty-prefix fallback (the one
non-deterministic input). -/
def ensure_session_id (fresh : Str) (instructions : Option Str)
    (input_items : List J) : Str :=
  let pref := sessionPref instructions input_items
  if pref.isEmpty then fresh
  else hexEncode (sha256 (utf8Encode pref))

/-! ## Upstream dispatcher (`start_upstream`) -/

/-- The persisted credential record (`CodexTokens` in the config module,
fields per §3 of the spec and their uses in `src/`). -/
structure CodexTokens where
  id_token : Option Str
  access_token : Option Str
  refresh_token : Option Str
  account_id : Option Str
  last_refresh : Option Str
  api_key : Option Str
deriving DecidableEq

/-- The error variants reached by the modelled paths. -/
inductive ClewdrError where
  | badRequest (msg : Str)
deriving DecidableEq

/-- The upstream request built by `start_upstream`, just before `send`. -/
structure UpstreamRequest where
  url : Str
  bearer : Str
  account_id : Str
  session_id : Str
  payload : J

/-- `CodexState::start_upstream` from `src/codex_state/mod.rs`, up to the
point the request is handed to the HTTP client (`send` is external I/O).
`fresh` stands for the random UUID drawn if the derived session id falls
back to it. -/
def start_upstream (tokens : CodexTokens) (model : Str) (instructions : Option Str)
    (input_items : List J) (tools : List J) (tool_choice : J)
    (parallel_tool_calls : Bool) (reasoning : Option J) (session_id : Option Str)
    (fresh : Str) : Except ClewdrError UpstreamRequest :=
  match tokens.access_token with
  | none => .error (.badRequest "Codex not authenticated. Use /api/codex/oauth/start".data)
  | some access_token =>
    match tokens.account_id with
    | none => .error (.badRequest "Codex missing account_id".data)
    | some account_id =>
      let inc : List J :=
        if reasoning.isSome then [.str "reasoning.encrypted_content".data] else []
      let sid := session_id.getD (ensure_session_id fresh instructions input_items)
      let basePayload : List (Str × J) :=
        [("model".data, .str model),
         ("instructions".data, match instructions with | some i => .str i | none => .null),
         ("input".data, .arr input_items),
         ("tools".data, .arr tools),
         ("tool_choice".data, tool_choice),
         ("parallel_tool_calls".data, .bool parallel_tool_calls),
         ("store".data, .bool false),
         ("stream".data, .bool true),
         ("prompt_cache_key".data, .str sid)]
      let withInc :=
        if inc.isEmpty then basePayload else basePayload ++ [("include".data, J.arr inc)]
      let payload :=
        match reasoning with
        | some r => withInc ++ [("reasoning".data, r)]
        | none => withInc
      .ok { url := "https://chatgpt.com/backend-api/codex/responses".data,
            bearer := access_token,
            account_id := account_id,
            session_id := sid,
            payload := J.obj payload }

/-! ## SSE stream translation (`codex_chat_completions`, streaming arm) -/

/-- A decoded upstream SSE event: its `data` either parsed as JSON or not
(`serde_json::from_str` failing). -/
inductive UpEvent where
  | unparseable (raw : Str)
  | parsed (v : J) (raw : Str)

/-- One outbound SSE event: a translated JSON chunk, or the original data
passed through. -/
inductive OutEvent where
  | chunk (j : J)
  | passthrough (raw : Str)

/-- `v.get("type").and_then(as_str).unwrap_or("")`. -/
def kindOf (v : J) : Str := ((v.get? "type".data).bind J.asStr?).getD []

/-- `v.get("response").and_then(get "id").and_then(as_str)`. -/
def respId? (v : J) : Option Str :=
  ((v.get? "response".data).bind (fun r => r.get? "id".data)).bind J.asStr?

/-- The per-event chunk id of the chat streaming arm:
`...unwrap_or("chatcmpl-stream")`. -/
def respIdOf (v : J) : Str := (respId? v).getD "chatcmpl-stream".data

/-- `response.error.message` extraction with the `"response.failed"` default. -/
def failMsg (v : J) : Str :=
  ((((v.get? "response".data).bind (fun r => r.get? "error".data)).bind
      (fun e => e.get? "message".data)).bind J.asStr?).getD "response.failed".data

/-- `v.get("response").and_then(get "usage")`. -/
def usageOf (v : J) : Option J :=
  (v.get? "response".data).bind (fun r => r.get? "usage".data)

/-- `v.get("item").cloned().unwrap_or(json!({}))`. -/
def itemOf (v : J) : J := (v.get? "item".data).getD (J.obj [])

/-- `item.get("type").and_then(as_str) == Some("function_call")`. -/
def itemIsFunctionCall (v : J) : Bool :=
  ((itemOf v).get? "type".data).bind J.asStr? == some "function_call".data

/-- A content-delta chunk of the chat streaming arm. -/
def deltaChunk (rid : Str) (created : Int) (model : Str) (delta : Str) : J :=
  J.obj [("id".data, .str rid), ("object".data, .str "chat.completion.chunk".data),
         ("created".data, .num created), ("model".data, .str model),
         ("choices".data, .arr [J.obj
           [("index".data, .num 0),
            ("delta".data, J.obj [("content".data, .str delta)]),
            ("finish_reason".data, .null)]])]

/-- A tool-call delta chunk of the chat streaming arm. -/
def toolChunk (rid : Str) (created : Int) (model : Str) (v : J) : J :=
  let item := itemOf v
  let call_id := (((item.get? "call_id".data).or (item.get? "id".data)).bind J.asStr?).getD []
  let name := ((item.get? "name".data).bind J.asStr?).getD []
  let args := ((item.get? "arguments".data).bind J.asStr?).getD []
  J.obj [("id".data, .str rid), ("object".data, .str "chat.completion.chunk".data),
         ("created".data, .num created), ("model".data, .str model),
         ("choices".data, .arr [J.obj
           [("index".data, .num 0),
            ("delta".data, J.obj [("tool_calls".data, .arr [J.obj
              [("index".data, .num 0), ("id".data, .str call_id),
               ("type".data, .str "function".data),
               ("function".data, J.obj [("name".data, .str name),
                                        ("arguments".data, .str args)])]])]),
            ("finish_reason".data, .null)]])]

/-- The terminal `finish_reason = "stop"` chunk. -/
def stopChunk (rid : Str) (created : Int) (model : Str) : J :=
  J.obj [("id".data, .str rid), ("object".data, .str "chat.completion.chunk".data),
         ("created".data, .num created), ("model".data, .str model),
         ("choices".data, .arr [J.obj
           [("index".data, .num 0), ("delta".data, J.obj []),
            ("finish_reason".data, .str "stop".data)]])]

/-- The in-band error object `{"error": {"message": msg}}`. -/
def errChunk (msg : Str) : J :=
  J.obj [("error".data, J.obj [("message".data, .str msg)])]

/-- The extra usage-carrying chunk on `response.completed`. -/
def usageChunk (rid : Str) (created : Int) (model : Str) (usage : J) : J :=
  J.obj [("id".data, .str rid), ("object".data, .str "chat.completion.chunk".data),
         ("created".data, .num created), ("model".data, .str model),
         ("choices".data, .arr [J.obj
           [("index".data, .num 0), ("delta".data, J.obj []),
            ("finish_reason".data, .null)]]),
         ("usage".data, usage)]

/-- The per-event translation of the chat streaming arm in
`codex_chat_completions` (`src/api/codex.rs`): the chain of `if kind == ...`
checks, ending in pass-through of the original data. -/
def translateChatEvent (created : Int) (model_out : Str) (include_usage : Bool) :
    UpEvent → OutEvent
  | .unparseable raw => .passthrough raw
  | .parsed v raw =>
    let kind := kindOf v
    let rid := respIdOf v
    if kind = "response.output_text.delta".data then
      .chunk (deltaChunk rid created model_out
        (((v.get? "delta".data).bind J.asStr?).getD []))
    else if kind = "response.output_item.done".data ∧ itemIsFunctionCall v then
      .chunk (toolChunk rid created model_out v)
    else if kind = "response.output_text.done".data then
      .chunk (stopChunk rid created model_out)
    else if kind = "response.failed".data then
      .chunk (errChunk (failMsg v))
    else if kind = "response.completed".data ∧ include_usage ∧ (usageOf v).isSome then
      .chunk (usageChunk rid created model_out ((usageOf v).getD .null))
    else
      .passthrough raw

/-- The whole streaming translation: one outbound event per upstream event,
in order. -/
def translateChatStream (created : Int) (model_out : Str) (include_usage : Bool)
    (events : List UpEvent) : List OutEvent :=
  events.map (translateChatEvent created model_out include_usage)

/-! ## Non-streaming aggregation (`codex_chat_completions`, aggregate arm) -/

/-- The loop state of the aggregation arm. -/
structure AggSt where
  full_text : Str
  response_id : Str
  usage_out : Option J
  tool_calls : List J

/-- Initial aggregation state (`response_id = "chatcmpl"`). -/
def initAggSt : AggSt := ⟨[], "chatcmpl".data, none, []⟩

/-- The tool-call object collected from a `function_call` item. -/
def toolCallObj (v : J) : J :=
  let item := itemOf v
  let call_id := (((item.get? "call_id".data).or (item.get? "id".data)).bind J.asStr?).getD []
  let name := ((item.get? "name".data).bind J.asStr?).getD []
  let args := ((item.get? "arguments".data).bind J.asStr?).getD []
  J.obj [("id".data, .str call_id), ("type".data, .str "function".data),
         ("function".data, J.obj [("name".data, .str name),
                                  ("arguments".data, .str args)])]

/-- The final `chat.completion` object built after the loop. -/
def aggFinish (created : Int) (requested_model : Str) (st : AggSt) : J :=
  let message :=
    if st.tool_calls.isEmpty then
      J.obj [("role".data, .str "assistant".data), ("content".data, .str st.full_text)]
    else
      J.obj [("role".data, .str "assistant".data), ("content".data, .str st.full_text),
             ("tool_calls".data, .arr st.tool_calls)]
  let completion :=
    [("id".data, J.str st.response_id), ("object".data, J.str "chat.completion".data),
     ("created".data, J.num created), ("model".data, J.str requested_model),
     ("choices".data, J.arr [J.obj
       [("index".data, .num 0), ("message".data, message),
        ("finish_reason".data, .str "stop".data)]])]
  match st.usage_out with
  | some u => J.obj (completion ++ [("usage".data, u)])
  | none => J.obj completion

/-- Outcome of the aggregation arm: a `200` completion or a `502` error
payload. -/
inductive AggOutcome where
  | ok (completion : J)
  | badGateway (msg : Str)

/-- The aggregation loop of `codex_chat_completions` (`src/api/codex.rs`):
unparseable events are skipped, `response.id` updates the id whenever seen,
deltas accumulate, `function_call` items collect, `response.completed`
breaks with usage, `response.failed` returns Bad Gateway at once. -/
def aggChatGo (created : Int) (requested_model : Str) (st : AggSt) :
    List UpEvent → AggOutcome
  | [] => .ok (aggFinish created requested_model st)
  | .unparseable _ :: rest => aggChatGo created requested_model st rest
  | .parsed v _ :: rest =>
    let st := { st with response_id := (respId? v).getD st.response_id }
    let kind := kindOf v
    if kind = "response.output_text.delta".data then
      aggChatGo created requested_model
        { st with full_text := st.full_text ++ (((v.get? "delta".data).bind J.asStr?).getD []) } rest
    else if kind = "response.output_item.done".data then
      if itemIsFunctionCall v then
        aggChatGo created requested_model
          { st with tool_calls := st.tool_calls ++ [toolCallObj v] } rest
      else aggChatGo created requested_model st rest
    else if kind = "response.completed".data then
      .ok (aggFinish created requested_model { st with usage_out := usageOf v })
    else if kind = "response.failed".data then
      .badGateway (failMsg v)
    else aggChatGo created requested_model st rest

/-- The aggregation arm from its initial state. -/
def aggChat (created : Int) (requested_model : Str) (events : List UpEvent) :
    AggOutcome :=
  aggChatGo created requested_model initAggSt events

/-! ## OAuth PKCE callback (`api_codex_oauth_callback`) -/

/-- The callback's query parameters. -/
structure CallbackQuery where
  code : Option Str
  state : Option Str
  error : Option Str
  error_description : Option Str

/-- The in-memory pending flow stored by `api_codex_oauth_start`. -/
structure PendingOauth where
  state : Str
  code_verifier : Str
  redirect_uri : Str
deriving DecidableEq

/-- The HTML result pages the callback can render. -/
inductive PageKind where
  | errorPage (err desc : Str)
  | invalidCallback
  | noPending
  | stateMismatch
  | exchangeTransportErr (e : Str)
  | tokenEndpointErr (status : Nat) (body : Str)
  | loginSuccess
deriving DecidableEq

/-- The result of the token-exchange POST, an external effect: a transport
failure, or an HTTP response whose JSON body yields the three token fields
(absent fields already defaulted to empty, as `unwrap_or("")` does). -/
inductive ExchangeOutcome where
  | transportErr (e : Str)
  | httpResp (status : Nat) (body : Str) (id_token access_token refresh_token : Str)

/-- What one callback invocation leaves behind: the rendered page, the
credential record, the pending slot, and whether the token-exchange POST
was issued. -/
structure CallbackResult where
  page : PageKind
  tokens : CodexTokens
  pending : Option PendingOauth
  exchanged : Bool

/-- `some_if_not_empty` from `src/api/codex_oauth.rs`. -/
def some_if_not_empty (s : Str) : Option Str :=
  if (rustTrim s).isEmpty then none else some s

/-- `option_if_not_empty` from `src/api/codex_oauth.rs`. -/
def option_if_not_empty : Option Str → Option Str
  | some v => if (rustTrim v).isEmpty then none else some v
  | none => none

/-- `api_codex_oauth_callback` from `src/api/codex_oauth.rs` as a state
transformer. `exchange` is the outcome of the token-endpoint POST (consumed
only on the path that reaches it); `parseClaim` models `parse_jwt_claim`
applied to the id token (unverified base64url JSON claim extraction);
`now` models `Utc::now().to_rfc3339()`. -/
def api_codex_oauth_callback (q : CallbackQuery) (pending : Option PendingOauth)
    (tokens : CodexTokens) (exchange : ExchangeOutcome)
    (parseClaim : Str → Option Str) (now : Str) : CallbackResult :=
  match q.error with
  | some err => ⟨.errorPage err (q.error_description.getD []), tokens, pending, false⟩
  | none =>
    match q.code, q.state with
    | some _, some st =>
      (match pending with
       | none => ⟨.noPending, tokens, pending, false⟩
       | some p =>
         if p.state ≠ st then ⟨.stateMismatch, tokens, pending, false⟩
         else
           match exchange with
           | .transportErr e => ⟨.exchangeTransportErr e, tokens, pending, true⟩
           | .httpResp status body idt act rft =>
             if ¬(200 ≤ status ∧ status < 300) then
               ⟨.tokenEndpointErr status body, tokens, pending, true⟩
             else
               let account_id := parseClaim idt
               let tokens' : CodexTokens :=
                 { id_token := some_if_not_empty idt,
                   access_token := some_if_not_empty act,
                   refresh_token := some_if_not_empty rft,
                   account_id := option_if_not_empty account_id,
                   last_refresh := some now,
                   api_key := tokens.api_key }
               ⟨.loginSuccess, tokens', none, true⟩)
    | _, _ => ⟨.invalidCallback, tokens, pending, false⟩

/-- The most recently seen `response.id` across a list of events (`none`
until one has been seen): the reference point of the spec's response-id
rule for streams. -/
def lastRespId (events : List UpEvent) : Option Str :=
  events.foldl
    (fun acc e =>
      match e with
      | .parsed v _ => (respId? v).elim acc some
      | .unparseable _ => acc)
    none

/-- Whether an event is non-terminal for the aggregation loop: neither a
parseable `response.completed` nor a parseable `response.failed`. -/
def nonTerminalEvent : UpEvent → Bool
  | .unparseable _ => true
  | .parsed v _ =>
    kindOf v != "response.completed".data && kindOf v != "response.failed".data

/-! ## Helper lemmas -/

/-- A SHA-256 digest always has 32 bytes. -/
lemma sha256_length (msg : List Nat) : (sha256 msg).length = 32 := by
  simp [sha256, digestBytes, wordBytes]

/-- Hex encoding yields two characters per byte. -/
lemma hexEncode_length (bs : List Nat) : (hexEncode bs).length = 2 * bs.length := by
  induction bs with
  | nil => rfl
  | cons b t ih =>
    simp only [hexEncode, List.flatMap_cons, List.length_append, List.length_cons,
      List.length_nil] at ih ⊢
    omega

/-! ## C1: session-id derivation -/

/-- C1: for every `(instructions, input_items)` pair, when the derived
prefix is non-empty the session id is the lowercase hex SHA-256 digest of
the prefix bytes — 64 characters long and independent of the random
fallback value, so two calls with identical inputs agree — and when the
prefix is empty the freshly generated identifier is returned instead. -/
theorem C1_session_id (fresh fresh2 : Str) (ins : Option Str) (items : List J) :
    (sessionPref ins items ≠ [] →
      ensure_session_id fresh ins items =
        hexEncode (sha256 (utf8Encode (sessionPref ins items))) ∧
      (ensure_session_id fresh ins items).length = 64 ∧
      ensure_session_id fresh ins items = ensure_session_id fresh2 ins items) ∧
    (sessionPref ins items = [] → ensure_session_id fresh ins items = fresh) := by
  constructor
  · intro h
    have hne : (sessionPref ins items).isEmpty = false := by
      cases hp : (sessionPref ins items).isEmpty
      · rfl
      · exact absurd (List.isEmpty_iff.mp hp) h
    refine ⟨?_, ?_, ?_⟩
    · simp [ensure_session_id, hne]
    · simp [ensure_session_id, hne, hexEncode_length, sha256_length]
    · simp [ensure_session_id, hne]
  · intro h
    simp [ensure_session_id, h]

/-- C1 witness: concrete instantiations of both arms. -/
theorem C1_session_id_witness :
    (ensure_session_id "u".data (some "hi".data) [] =
        hexEncode (sha256 (utf8Encode (sessionPref (some "hi".data) []))) ∧
      (ensure_session_id "u".data (some "hi".data) []).length = 64 ∧
      ensure_session_id "u".data (some "hi".data) [] =
        ensure_session_id "w".data (some "hi".data) []) ∧
    ensure_session_id "u".data none [] = "u".data := by
  refine ⟨(C1_session_id "u".data "w".data (some "hi".data) []).1 (by decide), ?_⟩
  exact (C1_session_id "u".data "w".data none []).2 (by decide)

/-! ## C2: model-name normalization -/

/-- C2 counterexample: normalization is not idempotent. Only one effort
suffix is stripped per separator in a single call, so `"a-low-low"`
normalizes to `"a-low"`, which a second call shortens to `"a"`. -/
theorem C2_not_idempotent :
    normalize_model_name (some (normalize_model_name (some "a-low-low".data))) ≠
      normalize_model_name (some "a-low-low".data) := by
  decide

set_option maxHeartbeats 8000000

/-- C2 amended: normalization is total but not idempotent in general (a
single call strips at most one effort suffix per separator, `'-'` before
`'_'`). Absent or blank input yields `"gpt-5"`; the alias table maps as
documented, also through `':'`-tags and one case-insensitive effort
suffix; any other input passes through as its stripped form. -/
theorem C2_normalization (s : Str) :
    normalize_model_name none = "gpt-5".data ∧
    ((rustTrim s).isEmpty = true → normalize_model_name (some s) = "gpt-5".data) ∧
    (normalize_model_name (some "gpt5".data) = "gpt-5".data ∧
     normalize_model_name (some "gpt-5-latest".data) = "gpt-5".data ∧
     normalize_model_name (some "gpt-5".data) = "gpt-5".data ∧
     normalize_model_name (some "codex".data) = "codex-mini-latest".data ∧
     normalize_model_name (some "codex-mini".data) = "codex-mini-latest".data ∧
     normalize_model_name (some "codex-mini-latest".data) = "codex-mini-latest".data ∧
     normalize_model_name (some "gpt5:dev".data) = "gpt-5".data ∧
     normalize_model_name (some "codex-mini_HIGH".data) = "codex-mini-latest".data ∧
     normalize_model_name (some "gpt-5-latest-Medium".data) = "gpt-5".data) ∧
    ((rustTrim s).isEmpty = false →
      strip_effort (rustTrim (beforeColon (rustTrim s))) ∉
        ["gpt5".data, "gpt-5-latest".data, "gpt-5".data, "codex".data,
         "codex-mini".data, "codex-mini-latest".data] →
      normalize_model_name (some s) =
        strip_effort (rustTrim (beforeColon (rustTrim s)))) := by
  refine ⟨by decide, ?_, by decide, ?_⟩
  · intro h
    simp [normalize_model_name, Option.filter, h]
  · intro h hmem
    simp only [List.mem_cons, List.not_mem_nil, not_or, or_false] at hmem
    obtain ⟨h1, h2, h3, h4, h5, h6⟩ := hmem
    simp only [normalize_model_name, Option.map_some', Option.filter, h,
      Bool.not_false, if_true]
    rw [applyAlias, if_neg (not_or.mpr ⟨h1, not_or.mpr ⟨h2, h3⟩⟩),
      if_neg (not_or.mpr ⟨h4, not_or.mpr ⟨h5, h6⟩⟩)]

/-- C2 witness: concrete instantiations of the blank-input arm and the
pass-through arm. -/
theorem C2_normalization_witness :
    normalize_model_name (some "   ".data) = "gpt-5".data ∧
    normalize_model_name (some "claude-3-opus".data) = "claude-3-opus".data := by
  constructor
  · exact (C2_normalization "   ".data).2.1 (by decide)
  · exact ((C2_normalization "claude-3-opus".data).2.2.2 (by decide)
      (by decide)).trans (by decide)

/-! ## C3: dispatcher credential check -/

/-- C3 counterexample: the dispatcher checks only presence, not
non-emptiness. With `access_token = Some("")` (present but empty) and an
account id, `start_upstream` proceeds to build the request, carrying the
empty string as bearer token. -/
theorem C3_empty_token_proceeds :
    ((start_upstream ⟨none, some [], none, some "acc".data, none, none⟩
        "gpt-5".data none [] [] J.null false none (some "sid".data)
        "u".data).toOption.map
      (fun req => (req.bearer, req.account_id))) = some ([], "acc".data) := by
  rfl

/-- C3 amended: the dispatcher never proceeds unless both `access_token`
and `account_id` are present (`Some`); when either is absent it returns a
`BadRequest` error before any request is built (so nothing is sent and no
state changes); emptiness of the present strings is not checked at
dispatch time. -/
theorem C3_credential_check (tokens : CodexTokens) (model : Str)
    (instructions : Option Str) (input_items tools : List J) (tool_choice : J)
    (ptc : Bool) (reasoning : Option J) (sid : Option Str) (fresh : Str) :
    (tokens.access_token = none →
      start_upstream tokens model instructions input_items tools tool_choice
          ptc reasoning sid fresh =
        .error (.badRequest "Codex not authenticated. Use /api/codex/oauth/start".data)) ∧
    (∀ a, tokens.access_token = some a → tokens.account_id = none →
      start_upstream tokens model instructions input_items tools tool_choice
          ptc reasoning sid fresh =
        .error (.badRequest "Codex missing account_id".data)) ∧
    (∀ a b, tokens.access_token = some a → tokens.account_id = some b →
      (start_upstream tokens model instructions input_items tools tool_choice
          ptc reasoning sid fresh).toOption.map
        (fun req => (req.bearer, req.account_id)) = some (a, b)) := by
  refine ⟨?_, ?_, ?_⟩
  · intro h
    simp [start_upstream, h]
  · intro a ha hb
    simp [start_upstream, ha, hb]
  · intro a b ha hb
    simp only [start_upstream, ha, hb]
    rfl

/-- C3 witness: the three arms at concrete credential records. -/
theorem C3_credential_check_witness :
    (start_upstream ⟨none, none, none, none, none, none⟩ "m".data none [] []
        J.null false none (some "s".data) "u".data =
      .error (.badRequest "Codex not authenticated. Use /api/codex/oauth/start".data)) ∧
    (start_upstream ⟨none, some "t".data, none, none, none, none⟩ "m".data none
        [] [] J.null false none (some "s".data) "u".data =
      .error (.badRequest "Codex missing account_id".data)) ∧
    ((start_upstream ⟨none, some "t".data, none, some "a".data, none, none⟩
        "m".data none [] [] J.null false none (some "s".data)
        "u".data).toOption.map (fun req => (req.bearer, req.account_id)) =
      some ("t".data, "a".data)) := by
  refine ⟨?_, ?_, ?_⟩
  · exact (C3_credential_check ⟨none, none, none, none, none, none⟩ "m".data
      none [] [] J.null false none (some "s".data) "u".data).1 rfl
  · exact (C3_credential_check ⟨none, some "t".data, none, none, none, none⟩
      "m".data none [] [] J.null false none (some "s".data) "u".data).2.1
      "t".data rfl rfl
  · exact (C3_credential_check
      ⟨none, some "t".data, none, some "a".data, none, none⟩ "m".data none []
      [] J.null false none (some "s".data) "u".data).2.2 "t".data "a".data
      rfl rfl

/-! ## C5: streaming translation scenario -/

/-- C5: on the scenario stream — two text deltas `"He"`, `"llo"`, then
`response.output_text.done`, then `response.completed` carrying
`usage.total_tokens = 5` — with usage inclusion requested, the chat
streaming translator emits exactly two content-delta chunks with null
finish reason, one empty-delta `finish_reason = "stop"` chunk, and one
usage-carrying chunk with empty delta and null finish reason, in order.
(Per the upstream event shape of §3, usage sits under the `response`
sub-object.) -/
theorem C5_streaming_scenario :
    translateChatStream 0 "gpt-5".data true
      [.parsed (J.obj [("type".data, .str "response.output_text.delta".data),
                       ("delta".data, .str "He".data)]) [],
       .parsed (J.obj [("type".data, .str "response.output_text.delta".data),
                       ("delta".data, .str "llo".data)]) [],
       .parsed (J.obj [("type".data, .str "response.output_text.done".data)]) [],
       .parsed (J.obj [("type".data, .str "response.completed".data),
                       ("response".data, J.obj [("usage".data,
                          J.obj [("total_tokens".data, .num 5)])])]) []] =
      [.chunk (deltaChunk "chatcmpl-stream".data 0 "gpt-5".data "He".data),
       .chunk (deltaChunk "chatcmpl-stream".data 0 "gpt-5".data "llo".data),
       .chunk (stopChunk "chatcmpl-stream".data 0 "gpt-5".data),
       .chunk (usageChunk "chatcmpl-stream".data 0 "gpt-5".data
         (J.obj [("total_tokens".data, .num 5)]))] := by
  rfl

/-! ## C6: chunk response id -/

/-- C6 counterexample: in the stream `response.created{response:{id:
"resp_abc"}}` followed by `response.output_text.delta{delta:"x"}`, an id
has been seen before the delta arrives (`lastRespId` = `resp_abc`), yet
the chunk emitted for the delta carries the placeholder
`"chatcmpl-stream"` — the streaming arm reads the id from the producing
event only, so the placeholder is used not "only until the first
response.id has been seen". -/
theorem C6_placeholder_after_id_seen :
    lastRespId
        [.parsed (J.obj [("type".data, .str "response.created".data),
            ("response".data, J.obj [("id".data, .str "resp_abc".data)])]) "r1".data,
         .parsed (J.obj [("type".data, .str "response.output_text.delta".data),
            ("delta".data, .str "x".data)]) "r2".data] = some "resp_abc".data ∧
    translateChatStream 0 "m".data false
        [.parsed (J.obj [("type".data, .str "response.created".data),
            ("response".data, J.obj [("id".data, .str "resp_abc".data)])]) "r1".data,
         .parsed (J.obj [("type".data, .str "response.output_text.delta".data),
            ("delta".data, .str "x".data)]) "r2".data] =
      [.passthrough "r1".data,
       .chunk (deltaChunk "chatcmpl-stream".data 0 "m".data "x".data)] ∧
    ("chatcmpl-stream".data : Str) ≠ "resp_abc".data := by
  exact ⟨rfl, rfl, by decide⟩

/-- C6 amended: each chunk the chat streaming arm emits takes its `id`
from the `response.id` of the very event that produced it, with the fixed
placeholder whenever that event carries none (regardless of ids seen
earlier in the stream); only the in-band error object carries no id. -/
theorem C6_chunk_id (created : Int) (model_out : Str) (inc : Bool) (v : J)
    (raw : Str) (j : J)
    (h : translateChatEvent created model_out inc (.parsed v raw) = .chunk j) :
    j.get? "id".data = some (.str (respIdOf v)) ∨ j.get? "id".data = none := by
  simp only [translateChatEvent] at h
  split_ifs at h with h1 h2 h3 h4 h5
  · cases h; exact Or.inl rfl
  · cases h; exact Or.inl rfl
  · cases h; exact Or.inl rfl
  · cases h; exact Or.inr rfl
  · cases h; exact Or.inl rfl

/-- C6 witness: the amended rule applied to a concrete delta event. -/
theorem C6_chunk_id_witness :
    (deltaChunk "chatcmpl-stream".data 0 "m".data "x".data).get? "id".data =
        some (.str (respIdOf (J.obj
          [("type".data, .str "response.output_text.delta".data),
           ("delta".data, .str "x".data)]))) ∨
      (deltaChunk "chatcmpl-stream".data 0 "m".data "x".data).get? "id".data =
        none :=
  C6_chunk_id 0 "m".data false
    (J.obj [("type".data, .str "response.output_text.delta".data),
            ("delta".data, .str "x".data)]) "r".data
    (deltaChunk "chatcmpl-stream".data 0 "m".data "x".data) rfl

/-! ## C7: ToolResult placement -/

/-- C7 counterexample: a user message holding one `ToolResult` block is
translated into a single top-level `message` item whose `content` array
holds the `function_call_output` object — the `function_call_output` is
merged into the message item, not emitted as its own top-level item (every
top-level item is `message`-typed). -/
theorem C7_toolresult_merged :
    convert_messages_to_responses_input
        [⟨.user, .blocks [.toolResult "call_1".data "out".data]⟩] =
      [messageObj "user".data
        [J.obj [("type".data, .str "function_call_output".data),
                ("call_id".data, .str "call_1".data),
                ("output".data, .str "out".data)]]] ∧
    ((convert_messages_to_responses_input
        [⟨.user, .blocks [.toolResult "call_1".data "out".data]⟩]).all
      (fun j => (j.get? "type".data).bind J.asStr? == some "message".data)) =
      true :=
  ⟨rfl, rfl⟩

/-- Every item pushed for one message is a `messageObj`. -/
lemma mem_message_to_items (m : Message) (j : J) (hj : j ∈ message_to_items m) :
    ∃ r items, j = messageObj r items := by
  obtain ⟨role, content⟩ := m
  cases role <;> rcases content with c | c <;>
    simp only [message_to_items] at hj <;>
    try split_ifs at hj
  all_goals
    first
      | exact absurd hj (List.not_mem_nil _)
      | (rw [List.mem_singleton] at hj; exact ⟨_, _, hj⟩)

/-- C7 amended: every top-level item produced by the converter has type
`message`; each `ToolResult` block of a user/tool message becomes a
`{type: "function_call_output", call_id: tool_use_id, output: content}`
object inside the containing message item's `content` array (merged into
the message, not emitted as its own top-level item). -/
theorem C7_function_call_output_placement :
    (∀ msgs j, j ∈ convert_messages_to_responses_input msgs →
      (j.get? "type".data).bind J.asStr? = some "message".data) ∧
    (∀ blks tid c, ContentBlock.toolResult tid c ∈ blks →
      J.obj [("type".data, .str "function_call_output".data),
             ("call_id".data, .str tid), ("output".data, .str c)] ∈
        userItems blks) ∧
    (∀ blks, (userItems blks).isEmpty = false →
      convert_messages_to_responses_input [⟨.user, .blocks blks⟩] =
        [messageObj "user".data (userItems blks)]) := by
  refine ⟨?_, ?_, ?_⟩
  · intro msgs j hj
    induction msgs with
    | nil => cases hj
    | cons m rest ih =>
      simp only [convert_messages_to_responses_input] at hj
      rcases List.mem_append.mp hj with hm | hr
      · obtain ⟨r, items, rfl⟩ := mem_message_to_items m j hm
        rfl
      · exact ih hr
  · intro blks tid c h
    simp only [userItems]
    exact List.mem_filterMap.mpr ⟨ContentBlock.toolResult tid c, h, rfl⟩
  · intro blks h
    simp [convert_messages_to_responses_input, message_to_items, h]

/-- C7 witness: the amended statement applied to a concrete ToolResult
message. -/
theorem C7_function_call_output_placement_witness :
    ((messageObj "user".data
        (userItems [.toolResult "t".data "o".data])).get? "type".data).bind
        J.asStr? = some "message".data ∧
    J.obj [("type".data, .str "function_call_output".data),
           ("call_id".data, .str "t".data), ("output".data, .str "o".data)] ∈
      userItems [.toolResult "t".data "o".data] ∧
    convert_messages_to_responses_input
        [⟨.user, .blocks [.toolResult "t".data "o".data]⟩] =
      [messageObj "user".data (userItems [.toolResult "t".data "o".data])] := by
  refine ⟨?_, ?_, ?_⟩
  · exact C7_function_call_output_placement.1
      [⟨.user, .blocks [.toolResult "t".data "o".data]⟩]
      (messageObj "user".data (userItems [.toolResult "t".data "o".data]))
      (List.mem_singleton.mpr rfl)
  · exact C7_function_call_output_placement.2.1
      [.toolResult "t".data "o".data] "t".data "o".data (by decide)
  · exact C7_function_call_output_placement.2.2
      [.toolResult "t".data "o".data] rfl

/-! ## C9: OAuth callback rejection -/

/-- C9: a callback that lacks `code` or `state`, or arrives with no
pending flow, or whose `state` does not match the pending flow's state, is
rejected with a failure page (never the success page), performs no token
exchange, and leaves the credential record exactly as it was. -/
theorem C9_callback_rejection (q : CallbackQuery) (pending : Option PendingOauth)
    (tokens : CodexTokens) (exchange : ExchangeOutcome)
    (parseClaim : Str → Option Str) (now : Str)
    (herr : q.error = none)
    (hrej : q.code = none ∨ q.state = none ∨ pending = none ∨
      (∀ p, pending = some p → q.state ≠ some p.state)) :
    (api_codex_oauth_callback q pending tokens exchange parseClaim now).exchanged =
        false ∧
    (api_codex_oauth_callback q pending tokens exchange parseClaim now).tokens =
        tokens ∧
    (api_codex_oauth_callback q pending tokens exchange parseClaim now).page ≠
        .loginSuccess := by
  obtain ⟨code, state, err, desc⟩ := q
  cases err with
  | some e => exact Option.noConfusion herr
  | none =>
    cases code with
    | none => cases state <;> cases pending <;> simp [api_codex_oauth_callback]
    | some c =>
      cases state with
      | none => cases pending <;> simp [api_codex_oauth_callback]
      | some st =>
        cases pending with
        | none => simp [api_codex_oauth_callback]
        | some p =>
          have hne : p.state ≠ st := by
            rcases hrej with h | h | h | h
            · exact Option.noConfusion h
            · exact Option.noConfusion h
            · exact Option.noConfusion h
            · exact fun he => h p rfl (congrArg some he.symm)
          simp [api_codex_oauth_callback, hne]

/-- C9 witness: a concrete state-mismatch callback. -/
theorem C9_callback_rejection_witness :
    (api_codex_oauth_callback ⟨some "c".data, some "bad".data, none, none⟩
        (some ⟨"good".data, "v".data, "r".data⟩)
        ⟨none, some "at".data, none, some "acc".data, none, some "key".data⟩
        (.transportErr []) (fun _ => none) []).exchanged = false ∧
    (api_codex_oauth_callback ⟨some "c".data, some "bad".data, none, none⟩
        (some ⟨"good".data, "v".data, "r".data⟩)
        ⟨none, some "at".data, none, some "acc".data, none, some "key".data⟩
        (.transportErr []) (fun _ => none) []).tokens =
      ⟨none, some "at".data, none, some "acc".data, none, some "key".data⟩ ∧
    (api_codex_oauth_callback ⟨some "c".data, some "bad".data, none, none⟩
        (some ⟨"good".data, "v".data, "r".data⟩)
        ⟨none, some "at".data, none, some "acc".data, none, some "key".data⟩
        (.transportErr []) (fun _ => none) []).page ≠ .loginSuccess :=
  C9_callback_rejection ⟨some "c".data, some "bad".data, none, none⟩
    (some ⟨"good".data, "v".data, "r".data⟩)
    ⟨none, some "at".data, none, some "acc".data, none, some "key".data⟩
    (.transportErr []) (fun _ => none) [] rfl
    (Or.inr (Or.inr (Or.inr (fun p hp => by cases hp; decide))))

/-! ## C10: OAuth callback success persistence -/

/-- C10: a successful callback (matching state, 2xx exchange) persists a
record that replaces `id_token`, `access_token`, `refresh_token` (empty
strings normalized to absent), `account_id` (from the id-token claim,
empty normalized to absent) and `last_refresh` (fresh timestamp), while
keeping the previously stored `api_key` unchanged, clears the pending
slot, and renders the success page. -/
theorem C10_success_persist (code s : Str) (desc : Option Str) (p : PendingOauth)
    (tokens : CodexTokens) (status : Nat) (body idt act rft : Str)
    (parseClaim : Str → Option Str) (now : Str)
    (hstate : p.state = s) (h1 : 200 ≤ status) (h2 : status < 300) :
    api_codex_oauth_callback ⟨some code, some s, none, desc⟩ (some p) tokens
        (.httpResp status body idt act rft) parseClaim now =
      ⟨.loginSuccess,
       { id_token := some_if_not_empty idt,
         access_token := some_if_not_empty act,
         refresh_token := some_if_not_empty rft,
         account_id := option_if_not_empty (parseClaim idt),
         last_refresh := some now,
         api_key := tokens.api_key },
       none, true⟩ := by
  subst hstate
  simp [api_codex_oauth_callback, h1, h2]

/-- C10 witness: a concrete successful callback, showing the persisted
record keeps the stored `api_key`. -/
theorem C10_success_persist_witness :
    api_codex_oauth_callback
        ⟨some "c".data, some "st".data, none, none⟩
        (some ⟨"st".data, "v".data, "r".data⟩)
        ⟨some "oldid".data, some "oldat".data, none, none, some "t0".data,
         some "key".data⟩
        (.httpResp 200 [] "i".data "tok".data "".data) (fun _ => none)
        "2026-01-01".data =
      ⟨.loginSuccess,
       { id_token := some_if_not_empty "i".data,
         access_token := some_if_not_empty "tok".data,
         refresh_token := some_if_not_empty "".data,
         account_id := option_if_not_empty none,
         last_refresh := some "2026-01-01".data,
         api_key := some "key".data },
       none, true⟩ :=
  C10_success_persist "c".data "st".data none ⟨"st".data, "v".data, "r".data⟩
    ⟨some "oldid".data, some "oldat".data, none, none, some "t0".data,
     some "key".data⟩
    200 [] "i".data "tok".data "".data (fun _ => none) "2026-01-01".data
    rfl (by decide) (by decide)

/-! ## C4: response.failed handling -/

/-- A `response.failed` event translates to the in-band error chunk. -/
lemma translateChatEvent_failed (created : Int) (model_out : Str) (inc : Bool)
    (v : J) (raw : Str) (h : kindOf v = "response.failed".data) :
    translateChatEvent created model_out inc (.parsed v raw) =
      .chunk (errChunk (failMsg v)) := by
  simp only [translateChatEvent]
  rw [h, if_neg (by decide), if_neg (fun hc => absurd hc.1 (by decide)),
    if_neg (by decide), if_pos rfl]

/-- The aggregation loop hitting a `response.failed` event after only
non-terminal events returns Bad Gateway at once, from any loop state. -/
lemma aggChatGo_failed (created : Int) (m : Str) (v : J) (raw : Str)
    (h : kindOf v = "response.failed".data) :
    ∀ (pre : List UpEvent) (st : AggSt) (post : List UpEvent),
      pre.all nonTerminalEvent = true →
      aggChatGo created m st (pre ++ .parsed v raw :: post) =
        .badGateway (failMsg v) := by
  intro pre
  induction pre with
  | nil =>
    intro st post _
    show aggChatGo created m st (.parsed v raw :: post) = _
    simp only [aggChatGo]
    rw [h, if_neg (by decide), if_neg (by decide), if_neg (by decide),
      if_pos rfl]
  | cons e t ih =>
    intro st post hall
    rw [List.all_cons, Bool.and_eq_true] at hall
    obtain ⟨he, ht⟩ := hall
    cases e with
    | unparseable r =>
      show aggChatGo created m st (.unparseable r :: (t ++ _)) = _
      simp only [aggChatGo]
      exact ih st post ht
    | parsed v2 r2 =>
      simp only [nonTerminalEvent, Bool.and_eq_true, bne_iff_ne, ne_eq] at he
      obtain ⟨hc, hf⟩ := he
      show aggChatGo created m st (.parsed v2 r2 :: (t ++ _)) = _
      simp only [aggChatGo]
      by_cases h1 : kindOf v2 = "response.output_text.delta".data
      · rw [if_pos h1]; exact ih _ post ht
      · rw [if_neg h1]
        by_cases h2 : kindOf v2 = "response.output_item.done".data
        · rw [if_pos h2]
          by_cases h3 : itemIsFunctionCall v2
          · rw [if_pos h3]; exact ih _ post ht
          · rw [if_neg h3]; exact ih _ post ht
        · rw [if_neg h2, if_neg hc, if_neg hf]
          exact ih _ post ht

/-- C4: whenever a `response.failed` event is seen, the streaming
translator emits exactly one in-band `{error: {message}}` chunk for it and
keeps translating the remaining events (the stream is not terminated),
while the non-streaming aggregation — having seen only non-terminal events
so far — aborts at once with a Bad Gateway failure carrying the same
extracted message, discarding any accumulated text. The message is
`response.error.message`, defaulting to `"response.failed"`. -/
theorem C4_response_failed (created : Int) (model_out crm : Str) (inc : Bool)
    (v : J) (raw : Str) (pre post : List UpEvent)
    (h : kindOf v = "response.failed".data) :
    (translateChatStream created model_out inc (pre ++ .parsed v raw :: post) =
      translateChatStream created model_out inc pre ++
        .chunk (errChunk (failMsg v)) ::
          translateChatStream created model_out inc post) ∧
    (pre.all nonTerminalEvent = true →
      aggChat created crm (pre ++ .parsed v raw :: post) =
        .badGateway (failMsg v)) := by
  constructor
  · simp only [translateChatStream, List.map_append, List.map_cons]
    rw [translateChatEvent_failed created model_out inc v raw h]
  · intro hall
    exact aggChatGo_failed created crm v raw h pre initAggSt post hall

/-- C4 witness: a concrete failed event after one delta event. -/
theorem C4_response_failed_witness :
    (translateChatStream 0 "m".data true
        ([.parsed (J.obj [("type".data, .str "response.output_text.delta".data),
            ("delta".data, .str "Hel".data)]) []] ++
          .parsed (J.obj [("type".data, .str "response.failed".data),
            ("response".data, J.obj [("error".data,
              J.obj [("message".data, .str "boom".data)])])]) "rf".data :: []) =
      translateChatStream 0 "m".data true
          [.parsed (J.obj [("type".data, .str "response.output_text.delta".data),
              ("delta".data, .str "Hel".data)]) []] ++
        .chunk (errChunk (failMsg (J.obj [("type".data, .str "response.failed".data),
            ("response".data, J.obj [("error".data,
              J.obj [("message".data, .str "boom".data)])])]))) ::
          translateChatStream 0 "m".data true []) ∧
    aggChat 0 "m".data
        ([.parsed (J.obj [("type".data, .str "response.output_text.delta".data),
            ("delta".data, .str "Hel".data)]) []] ++
          .parsed (J.obj [("type".data, .str "response.failed".data),
            ("response".data, J.obj [("error".data,
              J.obj [("message".data, .str "boom".data)])])]) "rf".data :: []) =
      .badGateway (failMsg (J.obj [("type".data, .str "response.failed".data),
          ("response".data, J.obj [("error".data,
            J.obj [("message".data, .str "boom".data)])])])) := by
  refine ⟨(C4_response_failed 0 "m".data "m".data true
    (J.obj [("type".data, .str "response.failed".data),
            ("response".data, J.obj [("error".data,
              J.obj [("message".data, .str "boom".data)])])]) "rf".data
    [.parsed (J.obj [("type".data, .str "response.output_text.delta".data),
        ("delta".data, .str "Hel".data)]) []] [] rfl).1,
    (C4_response_failed 0 "m".data "m".data true
    (J.obj [("type".data, .str "response.failed".data),
            ("response".data, J.obj [("error".data,
              J.obj [("message".data, .str "boom".data)])])]) "rf".data
    [.parsed (J.obj [("type".data, .str "response.output_text.delta".data),
        ("delta".data, .str "Hel".data)]) []] [] rfl).2 rfl⟩

/-! ## C8: data-URL normalization lemmas -/

/-- A found index means membership. -/
lemma mem_of_idxIn_isSome (l : Str) (c : Char) (h : (idxIn l c).isSome = true) :
    c ∈ l := by
  induction l with
  | nil => simp [idxIn] at h
  | cons a t ih =>
    simp only [idxIn] at h
    by_cases hac : a = c
    · exact hac ▸ List.mem_cons_self a t
    · rw [if_neg hac] at h
      simp only [Option.isSome_map'] at h
      exact List.mem_cons_of_mem a (ih h)

/-- Splitting at the first comma of `h ++ ',' :: d` with comma-free `h`. -/
lemma splitOnceComma_of_append (h d : Str) (hh : ',' ∉ h) :
    splitOnceComma (h ++ ',' :: d) = some (h, d) := by
  induction h with
  | nil => simp [splitOnceComma]
  | cons c t ih =>
    have hc : ¬c = ',' := fun e => hh (e ▸ List.mem_cons_self c t)
    have ht : ',' ∉ t := fun m => hh (List.mem_cons_of_mem c m)
    simp [splitOnceComma, hc, ih ht]

/-- What a successful split says about the input. -/
lemma splitOnceComma_eq (u : Str) :
    ∀ h d, splitOnceComma u = some (h, d) → u = h ++ ',' :: d ∧ ',' ∉ h := by
  induction u with
  | nil => intro h d hs; simp [splitOnceComma] at hs
  | cons c t ih =>
    intro h d hs
    simp only [splitOnceComma] at hs
    by_cases hc : c = ','
    · rw [if_pos hc] at hs
      injection hs with hs
      obtain ⟨he1, he2⟩ := Prod.mk.inj hs
      subst he1
      subst he2
      subst hc
      exact ⟨rfl, List.not_mem_nil ','⟩
    · rw [if_neg hc] at hs
      rw [Option.map_eq_some'] at hs
      obtain ⟨⟨h', d'⟩, hsp, heq⟩ := hs
      obtain ⟨he1, he2⟩ := Prod.mk.inj heq
      subst he1
      subst he2
      obtain ⟨hu, hnm⟩ := ih h' d' hsp
      refine ⟨by rw [hu]; rfl, ?_⟩
      intro hm
      rcases List.mem_cons.mp hm with e | e
      · exact hc e.symm
      · exact hnm e

/-- A comma-free prefix of `h ++ ',' :: d` is a prefix of `h`. -/
lemma prefix_through_comma (p : Str) (hp : ',' ∉ p) :
    ∀ h d : Str, p.isPrefixOf (h ++ ',' :: d) = true → p.isPrefixOf h = true := by
  induction p with
  | nil => intro h d _; simp [List.isPrefixOf_iff_prefix]
  | cons c pt ih =>
    intro h d hpre
    rw [List.isPrefixOf_iff_prefix] at hpre ⊢
    cases h with
    | nil =>
      rw [List.nil_append, List.cons_prefix_cons] at hpre
      exact absurd hpre.1 (fun e => hp (e ▸ List.mem_cons_self c pt))
    | cons a ht =>
      rw [List.cons_append, List.cons_prefix_cons] at hpre
      rw [List.cons_prefix_cons]
      refine ⟨hpre.1, ?_⟩
      have := ih (fun m => hp (List.mem_cons_of_mem c m)) ht d
        (List.isPrefixOf_iff_prefix.mpr hpre.2)
      exact List.isPrefixOf_iff_prefix.mp this

/-- A prefix of `h` is a prefix of `h ++ rest`. -/
lemma prefix_extend (p h rest : Str) (hp : p.isPrefixOf h = true) :
    p.isPrefixOf (h ++ rest) = true := by
  rw [List.isPrefixOf_iff_prefix] at hp ⊢
  exact hp.trans (List.prefix_append h rest)

/-- Characters of a URL-safe-decodable candidate are in the URL alphabet. -/
lemma urlNoPadOk_chars (s : Str) (h : urlNoPadOk s = true) :
    ∀ c ∈ s, c ∈ urlChars := by
  intro c hc
  rw [urlNoPadOk, Bool.and_eq_true] at h
  exact mem_of_idxIn_isSome _ _ (List.all_eq_true.mp h.1 c hc)

/-- Members of `takeWhile p` satisfy `p`. -/
lemma mem_takeWhile_eq (p : Char → Bool) (l : Str) (c : Char)
    (h : c ∈ l.takeWhile p) : p c = true := by
  induction l with
  | nil => simp [List.takeWhile] at h
  | cons a t ih =>
    by_cases hpa : p a
    · rw [List.takeWhile_cons_of_pos hpa] at h
      rcases List.mem_cons.mp h with e | e
      · exact e ▸ hpa
      · exact ih e
    · rw [List.takeWhile_cons_of_neg hpa] at h
      exact absurd h (List.not_mem_nil c)

/-- Characters past the body of a candidate are the `'='` padding. -/
lemma mem_drop_eqCount (s : Str) (c : Char)
    (hc : c ∈ s.drop (s.length - eqCount s)) : c = '=' := by
  obtain ⟨r, hr⟩ := List.takeWhile_prefix (l := s.reverse) (p := fun c => c = '=')
  have hs : s = r.reverse ++ (s.reverse.takeWhile (fun c => c = '=')).reverse := by
    have h2 := congrArg List.reverse hr
    simpa using h2.symm
  have hlen : s.length - eqCount s = r.reverse.length := by
    have h3 := congrArg List.length hr
    simp only [List.length_append] at h3
    simp only [eqCount, List.length_reverse] at h3 ⊢
    omega
  have hdrop : s.drop (s.length - eqCount s) =
      (s.reverse.takeWhile (fun c => c = '=')).reverse := by
    rw [hlen]
    conv_lhs => rw [hs]
    exact List.drop_left _ _
  rw [hdrop] at hc
  have := mem_takeWhile_eq _ _ _ (List.mem_reverse.mp hc)
  exact of_decide_eq_true this

/-- Characters of a standard-decodable candidate are alphabet or padding. -/
lemma stdPadOk_chars (s : Str) (h : stdPadOk s = true) :
    ∀ c ∈ s, c ∈ stdChars ∨ c = '=' := by
  intro c hc
  rw [stdPadOk, Bool.and_eq_true, Bool.and_eq_true, Bool.and_eq_true] at h
  obtain ⟨-, -, hall, -⟩ := h
  rw [← List.take_append_drop (s.length - eqCount s) s] at hc
  rcases List.mem_append.mp hc with hb | hd
  · exact Or.inl (mem_of_idxIn_isSome _ _ (List.all_eq_true.mp hall c hb))
  · exact Or.inr (mem_drop_eqCount s c hd)

/-- The URL alphabet holds no whitespace and no CR/LF. -/
lemma urlChars_clean :
    ∀ c ∈ urlChars, c.isWhitespace = false ∧ ¬c = '\n' ∧ ¬c = '\r' := by
  decide

/-- The standard alphabet holds no whitespace and no CR/LF. -/
lemma stdChars_clean :
    ∀ c ∈ stdChars, c.isWhitespace = false ∧ ¬c = '\n' ∧ ¬c = '\r' := by
  decide

/-- `trim` is the identity on whitespace-free strings. -/
lemma rustTrim_eq_self (s : Str) (h : ∀ c ∈ s, c.isWhitespace = false) :
    rustTrim s = s := by
  have hl : ∀ t : Str, (∀ c ∈ t, c.isWhitespace = false) → trimL t = t := by
    intro t ht
    cases t with
    | nil => rfl
    | cons c t' => simp [trimL, ht c (List.mem_cons_self c t')]
  rw [rustTrim, hl s h, trimR,
    hl s.reverse (fun c hc => h c (List.mem_reverse.mp hc)), List.reverse_reverse]

/-- Newline removal is the identity on CR/LF-free strings. -/
lemma removeNL_eq_self (s : Str) (h : ∀ c ∈ s, ¬c = '\n' ∧ ¬c = '\r') :
    removeNL s = s := by
  rw [removeNL, List.filter_eq_self]
  intro c hc
  simp [(h c hc).1, (h c hc).2]

/-- Replacement is the identity when the replaced character is absent. -/
lemma replaceChar_eq_self (a b : Char) (s : Str) (h : a ∉ s) :
    replaceChar a b s = s := by
  induction s with
  | nil => rfl
  | cons c t ih =>
    have hc : ¬c = a := fun e => h (e ▸ List.mem_cons_self c t)
    simp [replaceChar, hc] at ih ⊢
    exact ih (fun m => h (List.mem_cons_of_mem c m))

/-- The replaced character is gone after replacement. -/
lemma notMem_replaceChar_self (a b : Char) (s : Str) (hab : ¬b = a) :
    a ∉ replaceChar a b s := by
  intro hm
  rw [replaceChar, List.mem_map] at hm
  obtain ⟨c, hc, he⟩ := hm
  by_cases hca : c = a
  · rw [if_pos hca] at he
    exact hab he
  · rw [if_neg hca] at he
    exact hca he

/-- Replacement introduces only its target character. -/
lemma notMem_replaceChar_other (a b x : Char) (s : Str) (hx : x ∉ s)
    (hbx : ¬b = x) : x ∉ replaceChar a b s := by
  intro hm
  rw [replaceChar, List.mem_map] at hm
  obtain ⟨c, hc, he⟩ := hm
  by_cases hca : c = a
  · rw [if_pos hca] at he
    exact hbx he
  · rw [if_neg hca] at he
    exact hx (he ▸ hc)

/-- The padded payload's length is a multiple of 4. -/
lemma dpadOf_length (d : Str) : (dpadOf d).length % 4 = 0 := by
  rw [dpadOf, List.length_append, List.length_replicate]
  omega

/-- Evaluation of `normalize_data_url` in the transforming branch. -/
lemma normalize_data_url_of_split (u h' d : Str)
    (hp : ("data:image/".data.isPrefixOf u) = true)
    (hsp : splitOnceComma u = some (h', d)) :
    normalize_data_url u =
      if !(urlNoPadOk (dpadOf d)) && !(stdPadOk (dpadOf d)) then u
      else h' ++ ',' :: dpadOf d := by
  simp [normalize_data_url, hp, hsp]

/-- C8: image-URL normalization passes any URL not starting with
`data:image/` through unchanged, and it is idempotent: applying it to its
own output is the identity. In the transforming case the output is
`header,cleaned-padded-payload`; in every failure case (no comma, or the
padded payload decoding under neither alphabet) the input is returned
unchanged, so re-normalizing changes nothing either way. -/
theorem C8_data_url_normalization :
    (∀ u : Str, ("data:image/".data.isPrefixOf u) = false →
      normalize_data_url u = u) ∧
    (∀ u : Str, normalize_data_url (normalize_data_url u) =
      normalize_data_url u) := by
  have hpass : ∀ u : Str, ("data:image/".data.isPrefixOf u) = false →
      normalize_data_url u = u := by
    intro u h
    simp [normalize_data_url, h]
  refine ⟨hpass, ?_⟩
  intro u
  cases hp : ("data:image/".data.isPrefixOf u) with
  | false => rw [hpass u hp, hpass u hp]
  | true =>
    cases hsp : splitOnceComma u with
    | none =>
      have e : normalize_data_url u = u := by
        simp [normalize_data_url, hp, hsp]
      rw [e, e]
    | some pr =>
      obtain ⟨h', d⟩ := pr
      obtain ⟨hu, hcomma⟩ := splitOnceComma_eq u h' d hsp
      rw [normalize_data_url_of_split u h' d hp hsp]
      cases hdec : (!(urlNoPadOk (dpadOf d)) && !(stdPadOk (dpadOf d))) with
      | true =>
        rw [if_pos rfl, normalize_data_url_of_split u h' d hp hsp, hdec,
          if_pos rfl]
      | false =>
        rw [if_neg (by decide : ¬(false = true))]
        have hdecOk : urlNoPadOk (dpadOf d) = true ∨ stdPadOk (dpadOf d) = true := by
          by_cases hu1 : urlNoPadOk (dpadOf d) = true
          · exact Or.inl hu1
          · by_cases hs1 : stdPadOk (dpadOf d) = true
            · exact Or.inr hs1
            · rw [Bool.not_eq_true] at hu1 hs1
              rw [hu1, hs1] at hdec
              simp at hdec
        have hclean : ∀ c ∈ dpadOf d,
            c.isWhitespace = false ∧ ¬c = '\n' ∧ ¬c = '\r' := by
          intro c hc
          rcases hdecOk with hok | hok
          · exact urlChars_clean c (urlNoPadOk_chars _ hok c hc)
          · rcases stdPadOk_chars _ hok c hc with hm | he
            · exact stdChars_clean c hm
            · subst he
              exact ⟨rfl, by decide, by decide⟩
        have hnd : '-' ∉ dpadOf d := by
          rw [dpadOf]
          intro hm
          rcases List.mem_append.mp hm with hm1 | hm2
          · exact notMem_replaceChar_other '_' '/' '-' _
              (notMem_replaceChar_self '-' '+' _ (by decide)) (by decide) hm1
          · exact absurd (List.eq_of_mem_replicate hm2) (by decide)
        have hnu : '_' ∉ dpadOf d := by
          rw [dpadOf]
          intro hm
          rcases List.mem_append.mp hm with hm1 | hm2
          · exact notMem_replaceChar_self '_' '/' _ (by decide) hm1
          · exact absurd (List.eq_of_mem_replicate hm2) (by decide)
        have hph : ("data:image/".data.isPrefixOf h') = true := by
          apply prefix_through_comma "data:image/".data (by decide) h' d
          rw [← hu]
          exact hp
        have hp2 : ("data:image/".data.isPrefixOf (h' ++ ',' :: dpadOf d)) = true :=
          prefix_extend "data:image/".data h' (',' :: dpadOf d) hph
        have hsp2 : splitOnceComma (h' ++ ',' :: dpadOf d) = some (h', dpadOf d) :=
          splitOnceComma_of_append h' (dpadOf d) hcomma
        rw [normalize_data_url_of_split _ h' (dpadOf d) hp2 hsp2]
        have hd1 : d1Of (dpadOf d) = dpadOf d := by
          rw [d1Of, rustTrim_eq_self _ (fun c hc => (hclean c hc).1),
            removeNL_eq_self _ (fun c hc => (hclean c hc).2),
            replaceChar_eq_self '-' '+' _ hnd,
            replaceChar_eq_self '_' '/' _ hnu]
        have hdpad2 : dpadOf (dpadOf d) = dpadOf d :=
          calc dpadOf (dpadOf d) =
              d1Of (dpadOf d) ++
                List.replicate ((4 - (d1Of (dpadOf d)).length % 4) % 4) '=' := rfl
            _ = dpadOf d ++
                List.replicate ((4 - (dpadOf d).length % 4) % 4) '=' := by rw [hd1]
            _ = dpadOf d ++ List.replicate ((4 - 0) % 4) '=' := by
                rw [dpadOf_length d]
            _ = dpadOf d := by simp
        rw [hdpad2, hdec, if_neg (by decide : ¬(false = true))]

/-- C8 witness: the pass-through arm at a non-data URL and the idempotence
arm at a URL-safe unpadded data URL (whose normalization adds padding). -/
theorem C8_data_url_normalization_witness :
    normalize_data_url "http://example.com/a.png".data =
      "http://example.com/a.png".data ∧
    normalize_data_url
        (normalize_data_url "data:image/png;base64,TWE".data) =
      normalize_data_url "data:image/png;base64,TWE".data ∧
    normalize_data_url "data:image/png;base64,TWE".data =
      "data:image/png;base64,TWE=".data := by
  refine ⟨C8_data_url_normalization.1 "http://example.com/a.png".data (by decide),
    C8_data_url_normalization.2 "data:image/png;base64,TWE".data, by decide⟩

end Clewdr
